import Mathlib

/-!
Verification of the virtual-machine core of the Operative-System project.

This file shallowly embeds the C sources (REGISTERS/registers.c, MEMORY/memory.c,
INTERRUPTS/interrupts.c, DMA/dma.c, CPU/cpu.c — the main implementation, i.e. the
variant built on the bitfield PSW with the PC_psw mirror) into Lean and proves or
refutes the specification claims about them.

Conventions:
* a C `Word` (struct with `char data[9]`) is modelled by the list of characters
  stored before the terminating NUL, so `strlen` is `List.length`;
* C `int` values are modelled by `Int`; where an arithmetic overflow of the
  32-bit machine integer is reachable, the result is wrapped with `wrap32`;
* C truncated division/remainder are `Int.div` / `Int.mod` (both round toward
  zero, as C does);
* side effects (registers, memory array, interrupt pending bits, the DMA
  controller, the CPU run state) live in one `Machine` record that is threaded
  through every operation; calls to `trigger_interrupt` additionally append the
  validated interrupt code to the `raised` trace, and the interrupt dispatcher
  appends each dispatched code to the `dispatched` trace, so that "an interrupt
  was raised/dispatched" is an observable proposition.
-/

/-- The contents of a C `Word` (`char data[9]`): the characters before the NUL. -/
abbrev Word := List Char

/-- Build a `Word` from a string literal. -/
def wrd (s : String) : Word := s.data

/-- `MEMORY_SIZE` from memory.h. -/
def MEMORY_SIZE : Int := 2000

/-- `OS_RESERVED` from memory.h. -/
def OS_RESERVED_LIMIT : Int := 300

/-- Numeric value of an ASCII digit character (C `c - '0'`). -/
def digitVal (c : Char) : Int := (c.toNat : Int) - 48

/-- C `isdigit`. -/
def isDigitC (c : Char) : Bool := 48 ≤ c.toNat && c.toNat ≤ 57

/-- C `isspace` (the characters `atoi` skips). -/
def isSpaceC (c : Char) : Bool :=
  c.toNat = 32 || c.toNat = 9 || c.toNat = 10 || c.toNat = 11 || c.toNat = 12 || c.toNat = 13

/-- Digit-accumulation loop of C `atoi`: consume leading digits, stop at the
first non-digit. -/
def c_atoi_loop : List Char → Int → Int
  | [], acc => acc
  | c :: rest, acc => if isDigitC c then c_atoi_loop rest (acc * 10 + digitVal c) else acc

/-- C `atoi`: skip whitespace, read an optional sign, then the leading digits. -/
def c_atoi : List Char → Int
  | [] => 0
  | c :: rest =>
    if isSpaceC c then c_atoi rest
    else if c = '-' then - c_atoi_loop rest 0
    else if c = '+' then c_atoi_loop rest 0
    else c_atoi_loop (c :: rest) 0

/-- The ASCII character of a decimal digit. -/
def digitChar (d : ℕ) : Char := Char.ofNat (48 + d)

/-- The 7 characters printed by `sprintf("%07d", n)` for `0 ≤ n ≤ 9999999`. -/
def pad7 (n : ℕ) : List Char :=
  [digitChar (n / 1000000 % 10), digitChar (n / 100000 % 10), digitChar (n / 10000 % 10),
   digitChar (n / 1000 % 10), digitChar (n / 100 % 10), digitChar (n / 10 % 10),
   digitChar (n % 10)]

/-- `word_to_int` from REGISTERS/registers.c: fail-soft decoding of a word.
If the stored string does not have exactly 8 characters the function logs an
error and returns 0; otherwise character 0 is the sign (`'1'` = negative) and
`atoi` is applied to characters 1..7. -/
def word_to_int (w : Word) : Int :=
  if w.length ≠ 8 then 0
  else if w.headI = '1' then - c_atoi (w.drop 1) else c_atoi (w.drop 1)

/-- Mirror of the logging behaviour of `word_to_int`: the only `LOG_ERROR`
call in its body sits under the length check. -/
def word_to_int_logs_error (w : Word) : Bool := w.length ≠ 8

/-- `int_to_word` from REGISTERS/registers.c: sign + `%07d` magnitude; values
whose magnitude exceeds 7 digits produce the `"OVERFLOW"` sentinel. -/
def int_to_word (v : Int) : Word :=
  if v.natAbs > 9999999 then wrd "OVERFLOW"
  else (if v < 0 then '1' else '0') :: pad7 v.natAbs

/-- Basic facts about a digit character. -/
lemma digitChar_props (d : ℕ) (hd : d < 10) :
    isSpaceC (digitChar d) = false ∧ digitChar d ≠ '-' ∧ digitChar d ≠ '+' ∧
    isDigitC (digitChar d) = true ∧ digitVal (digitChar d) = (d : Int) := by
  interval_cases d <;> exact ⟨by decide, by decide, by decide, by decide, by decide⟩

/-- `atoi` evaluated on seven digit characters. -/
lemma c_atoi_seven (d1 d2 d3 d4 d5 d6 d7 : ℕ)
    (h1 : d1 < 10) (h2 : d2 < 10) (h3 : d3 < 10) (h4 : d4 < 10)
    (h5 : d5 < 10) (h6 : d6 < 10) (h7 : d7 < 10) :
    c_atoi [digitChar d1, digitChar d2, digitChar d3, digitChar d4,
            digitChar d5, digitChar d6, digitChar d7] =
      ((((((d1 * 10 + d2) * 10 + d3) * 10 + d4) * 10 + d5) * 10 + d6) * 10 + d7 : ℕ) := by
  obtain ⟨s1, m1, p1, g1, v1⟩ := digitChar_props d1 h1
  obtain ⟨s2, m2, p2, g2, v2⟩ := digitChar_props d2 h2
  obtain ⟨s3, m3, p3, g3, v3⟩ := digitChar_props d3 h3
  obtain ⟨s4, m4, p4, g4, v4⟩ := digitChar_props d4 h4
  obtain ⟨s5, m5, p5, g5, v5⟩ := digitChar_props d5 h5
  obtain ⟨s6, m6, p6, g6, v6⟩ := digitChar_props d6 h6
  obtain ⟨s7, m7, p7, g7, v7⟩ := digitChar_props d7 h7
  simp [c_atoi, c_atoi_loop, s1, m1, p1, g1, v1, g2, v2, g3, v3, g4, v4, g5, v5,
        g6, v6, g7, v7]

/-- `atoi` recovers the value printed by `%07d`. -/
lemma c_atoi_pad7 (n : ℕ) (h : n ≤ 9999999) : c_atoi (pad7 n) = n := by
  unfold pad7
  rw [c_atoi_seven _ _ _ _ _ _ _ (Nat.mod_lt _ (by norm_num)) (Nat.mod_lt _ (by norm_num))
    (Nat.mod_lt _ (by norm_num)) (Nat.mod_lt _ (by norm_num)) (Nat.mod_lt _ (by norm_num))
    (Nat.mod_lt _ (by norm_num)) (Nat.mod_lt _ (by norm_num))]
  congr 1
  omega

/-- The word codec round-trips on every representable integer. -/
lemma word_int_round_trip (v : Int) (h1 : -9999999 ≤ v) (h2 : v ≤ 9999999) :
    word_to_int (int_to_word v) = v := by
  have habs : v.natAbs ≤ 9999999 := by omega
  have hno : ¬ v.natAbs > 9999999 := by omega
  have hlen : ∀ c : Char, (c :: pad7 v.natAbs).length = 8 := by
    intro c; simp [pad7]
  have hatoi : c_atoi (pad7 v.natAbs) = v.natAbs := c_atoi_pad7 v.natAbs habs
  rw [int_to_word, if_neg hno]
  by_cases hv : v < 0
  · rw [if_pos hv, word_to_int, if_neg (by simp [hlen])]
    simp only [List.headI, List.drop_succ_cons, List.drop_zero, hatoi]
    rw [if_pos (by decide)]
    omega
  · rw [if_neg hv, word_to_int, if_neg (by simp [hlen])]
    simp only [List.headI, List.drop_succ_cons, List.drop_zero, hatoi]
    rw [if_neg (by decide)]
    omega

/-- CPU run states (cpu.h). `CPU_WAITING` stands for the source's waiting state
and `CPU_ERR` for its error state; neither is driven by the core. -/
inductive CPUState where
  | CPU_RUNNING
  | CPU_HALTED
  | CPU_WAITING
  | CPU_ERR
deriving DecidableEq

export CPUState (CPU_RUNNING CPU_HALTED CPU_WAITING CPU_ERR)

/-- DMA controller states (dma.h). -/
inductive DMAState where
  | DMA_IDLE
  | DMA_READING
  | DMA_WRITING
  | DMA_ERROR
deriving DecidableEq

export DMAState (DMA_IDLE DMA_READING DMA_WRITING DMA_ERROR)

/-- The PSW bitfield (registers.h, main variant): 4-bit condition code, 1-bit
operation mode (0 = USER, 1 = KERNEL), 1-bit interrupt enable, 10-bit PC
mirror. Stored values always fit the field widths because every store below
reduces its argument accordingly. -/
structure PSWReg where
  condition_code : ℕ
  operation_mode : ℕ
  interrupt_enabled : ℕ
  PC_psw : ℕ
deriving DecidableEq

/-- The register file (registers.h, main variant). -/
structure CPURegisters where
  AC : Word
  MAR : Word
  MDR : Word
  IR : Word
  RB : Word
  RL : Word
  RX : Word
  SP : Word
  PC : Word
  psw : PSWReg
deriving DecidableEq

/-- The DMA controller record (dma.h), minus the pthread handles. -/
structure DMAController where
  memory_address : Int
  disk_track : Int
  disk_cylinder : Int
  disk_sector : Int
  io_operation : Int
  bytes_to_transfer : Int
  state : DMAState
  status : Int
deriving DecidableEq

/-- The whole observable machine: registers, the 2000-word memory array
(total function on ℕ; only indices < 2000 are ever written), the 9 interrupt
pending bits, the DMA controller, and the CPU run state.  `raised` records
every validated `trigger_interrupt` call and `dispatched` every handler run by
the dispatcher, making those events observable propositions. -/
structure Machine where
  regs : CPURegisters
  mem : ℕ → Word
  pending : Fin 9 → Bool
  dma : DMAController
  cpu_state : CPUState
  raised : List ℕ
  dispatched : List ℕ

/-- Storing an `int` into the 10-bit `PC_psw` bitfield truncates it mod 1024
(C unsigned bitfield conversion). -/
def pcBits (v : Int) : ℕ := (v % 1024).toNat

/-- Clamping used by the spec's `set_pc`. -/
def pcClamp (v : Int) : ℕ := (min (max v 0) 1023).toNat

/-- Modelled from the spec: `set_PC_int` is declared in the main registers
header but its implementation file is not under src/ (only the other register
file variant is).  Per §4.2 of the spec it updates both the full PC (stored as
a Word) and the PSW mirror `PC_psw`, the latter clamped to [0, 1023]. -/
def set_PC_int (s : Machine) (v : Int) : Machine :=
  { s with regs.PC := int_to_word v, regs.psw.PC_psw := pcClamp v }

/-- `update_condition_code` from registers.c. -/
def update_condition_code (s : Machine) (result : Int) : Machine :=
  if result = 0 then { s with regs.psw.condition_code := 0 }
  else if result < 0 then { s with regs.psw.condition_code := 1 }
  else { s with regs.psw.condition_code := 2 }

/-- The body of `trigger_interrupt` for an in-range code: if interrupts are
enabled the pending bit is latched, otherwise the request is dropped with a
log line.  The validated code is recorded in the `raised` trace either way
(it mirrors the DEBUG log emitted on both branches). -/
def trigger_in_range (s : Machine) (code : ℕ) : Machine :=
  if s.regs.psw.interrupt_enabled ≠ 0 then
    { s with pending := fun j => if (j : ℕ) = code then true else s.pending j,
             raised := s.raised ++ [code] }
  else { s with raised := s.raised ++ [code] }

/-- `trigger_interrupt` from INTERRUPTS/interrupts.c: an out-of-range code is
reported by re-triggering `INT_INVALID_INTERRUPT` (code 1). -/
def trigger_interrupt (s : Machine) (code : Int) : Machine :=
  if code < 0 ∨ code > 8 then trigger_in_range s 1
  else trigger_in_range s code.toNat

/-- The interrupt vector installed by `init_interrupts`: handlers 0, 1, 3, 4,
5 and 6 only log; handler 2 (SYSCALL) switches to kernel mode; handler 7
(UNDERFLOW) sets cc = 7; handler 8 (OVERFLOW) sets cc = 3. -/
def run_handler (i : Fin 9) (s : Machine) : Machine :=
  if (i : ℕ) = 2 then { s with regs.psw.operation_mode := 1 }
  else if (i : ℕ) = 7 then { s with regs.psw.condition_code := 7 }
  else if (i : ℕ) = 8 then { s with regs.psw.condition_code := 3 }
  else s

/-- One iteration of the dispatcher loop in `handle_pending_interrupts`: if
code `i` is pending, save context (a logged no-op), switch to kernel mode, run
the handler, clear the pending bit, restore context (a logged no-op).  The
dispatched code is appended to the `dispatched` trace. -/
def dispatch_one (s : Machine) (i : Fin 9) : Machine :=
  if s.pending i then
    let s1 := { s with regs.psw.operation_mode := 1 }
    let s2 := run_handler i s1
    { s2 with pending := fun j => if j = i then false else s2.pending j,
              dispatched := s2.dispatched ++ [(i : ℕ)] }
  else s

/-- `handle_pending_interrupts` from INTERRUPTS/interrupts.c: sweep codes 0..8
in ascending order. -/
def handle_pending_interrupts (s : Machine) : Machine :=
  (List.finRange 9).foldl dispatch_one s

/-- `logical_to_physical` from MEMORY/memory.c.  Returns the possibly updated
machine (a window violation triggers `INT_INVALID_ADDRESS`) and the physical
address, `-1` on violation. -/
def logical_to_physical (s : Machine) (logical : Int) : Machine × Int :=
  let rb := word_to_int s.regs.RB
  let rl := word_to_int s.regs.RL
  if rb = 0 ∧ rl = 0 then (s, logical)
  else
    let phys := logical + rb
    if phys < rb ∨ phys ≥ rb + rl then (trigger_interrupt s 6, -1)
    else (s, phys)

/-- `read_memory` from MEMORY/memory.c. -/
def read_memory (s : Machine) (logical : Int) : Machine × Word :=
  let t := logical_to_physical s logical
  if t.2 < 0 then (t.1, wrd "MEM_ERR")
  else if t.2 < 0 ∨ t.2 ≥ MEMORY_SIZE then (t.1, wrd "ADDR_ERR")
  else if t.2 < OS_RESERVED_LIMIT ∧ t.1.regs.psw.operation_mode = 0 then
    (trigger_interrupt t.1 6, wrd "PRIV_ERR")
  else (t.1, t.1.mem t.2.toNat)

/-- `write_memory` from MEMORY/memory.c. -/
def write_memory (s : Machine) (logical : Int) (word : Word) : Machine :=
  let t := logical_to_physical s logical
  if t.2 < 0 then t.1
  else if t.2 < 0 ∨ t.2 ≥ MEMORY_SIZE then t.1
  else if t.2 < OS_RESERVED_LIMIT ∧ t.1.regs.psw.operation_mode = 0 then
    trigger_interrupt t.1 6
  else { t.1 with mem := fun j => if j = t.2.toNat then word else t.1.mem j }

/-- Wrap-around of 32-bit two's-complement `int` arithmetic. -/
def wrap32 (z : Int) : Int := (z + 2147483648) % 4294967296 - 2147483648

/-- C truncated division (`/` on `int`). -/
def c_div (a b : Int) : Int := Int.tdiv a b

/-- C truncated remainder (`%` on `int`). -/
def c_mod (a b : Int) : Int := Int.tmod a b

/-- `dma_set_memory_address` from DMA/dma.c: reject addresses outside the
memory, otherwise store. -/
def dma_set_memory_address (s : Machine) (address : Int) : Machine :=
  if address < 0 ∨ address ≥ MEMORY_SIZE then s
  else { s with dma.memory_address := address }

/-- `dma_set_disk_location` from DMA/dma.c: reject coordinates outside the
10×10×100 geometry, otherwise store all three. -/
def dma_set_disk_location (s : Machine) (track cylinder sector : Int) : Machine :=
  if track < 0 ∨ track ≥ 10 ∨ cylinder < 0 ∨ cylinder ≥ 10 ∨ sector < 0 ∨ sector ≥ 100 then s
  else { s with dma.disk_track := track, dma.disk_cylinder := cylinder,
                dma.disk_sector := sector }

/-- `dma_set_io_operation` from DMA/dma.c. -/
def dma_set_io_operation (s : Machine) (operation : Int) : Machine :=
  if operation ≠ 0 ∧ operation ≠ 1 then s
  else { s with dma.io_operation := operation }

/-- `dma_set_transfer_size` from DMA/dma.c. -/
def dma_set_transfer_size (s : Machine) (size : Int) : Machine :=
  if size ≤ 0 then s
  else { s with dma.bytes_to_transfer := size }

/-- The 2 characters printed by `%02d` for `0 ≤ n < 100`. -/
def pad2 (n : ℕ) : List Char := [digitChar (n / 10 % 10), digitChar (n % 10)]

/-- The 3 characters printed by `%03d` for `0 ≤ n < 1000`. -/
def pad3 (n : ℕ) : List Char :=
  [digitChar (n / 100 % 10), digitChar (n / 10 % 10), digitChar (n % 10)]

/-- `dma_disk_read` from DMA/dma.c: the synthetic sector payload
`"T%02dC%02dS%03d"` truncated to the 8 characters of a word. -/
def dma_read_word (track cylinder sector : Int) : Word :=
  (('T' :: pad2 (c_mod track 100).toNat) ++ ('C' :: pad2 (c_mod cylinder 100).toNat) ++
    ('S' :: pad3 (c_mod sector 1000).toNat)).take 8

/-- One iteration of the transfer loop in `transfer_thread` (DMA/dma.c):
read path writes the synthetic disk word to `memory_address + i` through
`write_memory`; write path reads `memory_address + i` through `read_memory`
(the disk write itself only logs).  Either path flags an error when the
unchecked target `memory_address + i` leaves physical memory. -/
def transfer_step (s : Machine) (i : ℕ) : Machine :=
  if s.dma.io_operation = 0 then
    let w := dma_read_word s.dma.disk_track s.dma.disk_cylinder (s.dma.disk_sector + i)
    if s.dma.memory_address + i < MEMORY_SIZE then
      write_memory s (s.dma.memory_address + i) w
    else { s with dma.state := DMA_ERROR, dma.status := 1 }
  else
    if s.dma.memory_address + i < MEMORY_SIZE then
      (read_memory s (s.dma.memory_address + i)).1
    else { s with dma.state := DMA_ERROR, dma.status := 1 }

/-- The body of `transfer_thread` (DMA/dma.c): set the busy state, run the
loop (stopping after an error, as the C `break` does), restore `DMA_IDLE` on
success and raise `INT_IO_COMPLETION`.  The C runs this on a detached worker
thread; it is modelled synchronously. -/
def transfer_run (s : Machine) : Machine :=
  let s1 := { s with dma.state := if s.dma.io_operation = 0 then DMA_READING else DMA_WRITING }
  let s2 := (List.range s1.dma.bytes_to_transfer.toNat).foldl
    (fun t i => if t.dma.state = DMA_ERROR then t else transfer_step t i) s1
  let s3 :=
    if s2.dma.state ≠ DMA_ERROR then { s2 with dma.state := DMA_IDLE, dma.status := 0 }
    else s2
  trigger_interrupt s3 4

/-- `dma_start_transfer` from DMA/dma.c: refuse to start unless the controller
is idle; validate the memory address; then run the transfer (synchronously in
this model, on a detached thread in the C). -/
def dma_start_transfer (s : Machine) : Machine :=
  if s.dma.state ≠ DMA_IDLE then s
  else if s.dma.memory_address < 0 ∨ s.dma.memory_address ≥ MEMORY_SIZE then
    { s with dma.status := 1, dma.state := DMA_ERROR }
  else transfer_run s

/-- `dma_wait_completion`: blocks the caller until the worker joins; with the
synchronous transfer model it does not change the machine. -/
def dma_wait_completion (s : Machine) : Machine := s

/-- A decoded instruction (cpu.h). -/
structure Instruction where
  opcode : Int
  mode : Int
  value : Int
  effective_address : Int
deriving DecidableEq

/-- `calculate_effective_address` from CPU/cpu.c: direct and immediate use the
value, indexed adds the accumulator, anything else yields -1. -/
def calculate_effective_address (s : Machine) (mode value : Int) : Int :=
  if mode = 0 then value
  else if mode = 1 then value
  else if mode = 2 then word_to_int s.regs.AC + value
  else -1

/-- `decode_instruction` from CPU/cpu.c: an instruction word is
`OO M VVVVV`; a word whose stored string is not 8 characters long decodes to
opcode -1 (the C leaves the other fields uninitialized; they are taken as 0
here and never read on that path). -/
def decode_instruction (s : Machine) (w : Word) : Instruction :=
  if w.length ≠ 8 then { opcode := -1, mode := 0, value := 0, effective_address := 0 }
  else
    let opcode := c_atoi (w.take 2)
    let mode := digitVal (w.getD 2 ' ')
    let value := c_atoi ((w.drop 3).take 5)
    { opcode := opcode, mode := mode, value := value,
      effective_address := calculate_effective_address s mode value }

/-- The arithmetic block of `execute_instruction` (opcodes 0-3). -/
def exec_arith (s : Machine) (i : Instruction) : Machine :=
  let ac := word_to_int s.regs.AC
  let t :=
    if i.mode = 1 then (s, i.value)
    else
      let r := read_memory s i.effective_address
      (r.1, word_to_int r.2)
  let s1 := t.1
  let operand := t.2
  let result :=
    if i.opcode = 0 then wrap32 (ac + operand)
    else if i.opcode = 1 then wrap32 (ac - operand)
    else if i.opcode = 2 then wrap32 (ac * operand)
    else if operand ≠ 0 then c_div ac operand else 0
  let s2 := { s1 with regs.AC := int_to_word result }
  let s3 := update_condition_code s2 result
  if (i.opcode = 0 ∧ result < ac ∧ operand > 0) ∨
     (i.opcode = 1 ∧ result > ac ∧ operand < 0) ∨
     (i.opcode = 2 ∧ ac ≠ 0 ∧ c_div result ac ≠ operand) then
    trigger_interrupt { s3 with regs.psw.condition_code := 3 } 8
  else s3

/-- The comparison block of `execute_instruction` (opcodes 6-8). -/
def exec_compare (s : Machine) (i : Instruction) : Machine :=
  let ac := word_to_int s.regs.AC
  let t :=
    if i.mode = 1 then (s, i.value)
    else
      let r := read_memory s i.effective_address
      (r.1, word_to_int r.2)
  let s1 := t.1
  let operand := t.2
  if i.opcode = 6 then update_condition_code s1 (ac - operand)
  else if i.opcode = 7 then update_condition_code s1 (Int.land ac operand)
  else { s1 with regs.AC := int_to_word operand }

/-- The conditional-jump block of `execute_instruction` (opcodes 9-12). -/
def exec_cond_jump (s : Machine) (i : Instruction) : Machine :=
  let condition := s.regs.psw.condition_code
  let should_jump :=
    if i.opcode = 9 then condition = 0
    else if i.opcode = 10 then condition = 2
    else if i.opcode = 11 then condition = 1
    else condition = 3
  if should_jump then
    set_PC_int { s with regs.psw.PC_psw := pcBits i.effective_address } i.effective_address
  else s

/-- `execute_instruction` from CPU/cpu.c (main implementation): the full
opcode dispatch. -/
def execute_instruction (s : Machine) (i : Instruction) : Machine :=
  if i.opcode = -1 then trigger_interrupt s 5
  else if i.opcode = 0 ∨ i.opcode = 1 ∨ i.opcode = 2 ∨ i.opcode = 3 then exec_arith s i
  else if i.opcode = 4 then
    if i.mode = 1 then { s with regs.AC := int_to_word i.value }
    else
      let r := read_memory s i.effective_address
      { r.1 with regs.AC := r.2 }
  else if i.opcode = 5 then write_memory s i.effective_address s.regs.AC
  else if i.opcode = 6 ∨ i.opcode = 7 ∨ i.opcode = 8 then exec_compare s i
  else if i.opcode = 9 ∨ i.opcode = 10 ∨ i.opcode = 11 ∨ i.opcode = 12 then exec_cond_jump s i
  else if i.opcode = 13 then trigger_interrupt s 2
  else if i.opcode = 14 then
    let sp := word_to_int s.regs.SP
    let s1 := write_memory s sp (int_to_word (s.regs.psw.PC_psw : Int))
    let s2 := { s1 with regs.SP := int_to_word (sp - 1) }
    set_PC_int { s2 with regs.psw.PC_psw := pcBits i.effective_address } i.effective_address
  else if i.opcode = 15 then
    let sp := word_to_int s.regs.SP + 1
    let s1 := { s with regs.SP := int_to_word sp }
    let r := read_memory s1 sp
    let ret := word_to_int r.2
    set_PC_int { r.1 with regs.psw.PC_psw := pcBits ret } ret
  else if i.opcode = 16 then { s with regs.AC := s.regs.RB }
  else if i.opcode = 17 then { s with regs.RB := s.regs.AC }
  else if i.opcode = 18 then { s with regs.AC := s.regs.RL }
  else if i.opcode = 19 then { s with regs.RL := s.regs.AC }
  else if i.opcode = 25 then
    let sp := word_to_int s.regs.SP
    let s1 := write_memory s sp s.regs.AC
    { s1 with regs.SP := int_to_word (sp - 1) }
  else if i.opcode = 26 then
    let sp := word_to_int s.regs.SP + 1
    let s1 := { s with regs.SP := int_to_word sp }
    let r := read_memory s1 sp
    { r.1 with regs.AC := r.2 }
  else if i.opcode = 27 then
    set_PC_int { s with regs.psw.PC_psw := pcBits i.effective_address } i.effective_address
  else if i.opcode = 28 then
    dma_start_transfer (dma_set_io_operation (dma_set_memory_address s i.value) 0)
  else if i.opcode = 29 then
    dma_start_transfer (dma_set_io_operation (dma_set_memory_address s i.value) 1)
  else if i.opcode = 30 then dma_wait_completion s
  else if i.opcode = 31 then { s with regs.AC := int_to_word s.dma.status }
  else if i.opcode = 32 then
    dma_set_disk_location s (c_div i.value 10000) (c_div (c_mod i.value 10000) 100)
      (c_mod i.value 100)
  else if i.opcode = 33 then dma_set_transfer_size s i.value
  else if i.opcode = 34 ∨ i.opcode = 35 ∨ i.opcode = 36 then trigger_interrupt s 4
  else if i.opcode = 40 then { s with cpu_state := CPU_HALTED }
  else if i.opcode = 41 then s
  else if i.opcode = 42 then { s with regs.psw.interrupt_enabled := 1 }
  else if i.opcode = 43 then { s with regs.psw.interrupt_enabled := 0 }
  else if i.opcode = 44 then { s with regs.psw.operation_mode := 0 }
  else if i.opcode = 45 then { s with regs.psw.operation_mode := 1 }
  else trigger_interrupt s 5

/-- `fetch_instruction` from CPU/cpu.c: MAR := PC mirror, MDR := memory at
MAR, IR := MDR, PC_psw incremented (a 10-bit bitfield, so mod 1024) and the
full PC updated through `set_PC_int`; finally the IR is decoded. -/
def fetch_instruction (s : Machine) : Machine × Instruction :=
  let s1 := { s with regs.MAR := int_to_word (s.regs.psw.PC_psw : Int) }
  let marv := word_to_int s1.regs.MAR
  let r := read_memory s1 marv
  let s2 := { r.1 with regs.MDR := r.2 }
  let s3 := { s2 with regs.IR := s2.regs.MDR }
  let pc1 : ℕ := (s3.regs.psw.PC_psw + 1) % 1024
  let s4 := set_PC_int { s3 with regs.psw.PC_psw := pc1 } (Int.ofNat pc1)
  (s4, decode_instruction s4 s4.regs.IR)

/-- `cpu_cycle` from CPU/cpu.c: fetch, execute, sweep pending interrupts. -/
def cpu_cycle (s : Machine) : Machine :=
  if s.cpu_state ≠ CPU_RUNNING then s
  else
    let f := fetch_instruction s
    handle_pending_interrupts (execute_instruction f.1 f.2)

/-- The entry part of `execute_program` (CPU/cpu.c): point the PC at the start
address and set the CPU running; the loop body is `cpu_cycle` iterated. -/
def execute_program_start (s : Machine) (start : Int) : Machine :=
  { set_PC_int { s with regs.psw.PC_psw := pcBits start } start with
    cpu_state := CPU_RUNNING }

/-- Modelled from the spec: `init_registers` for the main register-file shape
(Word PC plus the PC_psw mirror) is not under src/ (only the other variant's
implementation is).  Per §4.2 of the spec: AC=MAR=MDR=IR=RB=RX=PC=0, RL=1024,
SP=1023, PSW={cc=0, mode=KERNEL, ie=0, pc_psw=0}. -/
def init_registers_regs : CPURegisters :=
  { AC := int_to_word 0, MAR := int_to_word 0, MDR := int_to_word 0, IR := int_to_word 0,
    RB := int_to_word 0, RL := int_to_word 1024, RX := int_to_word 0, SP := int_to_word 1023,
    PC := int_to_word 0,
    psw := { condition_code := 0, operation_mode := 1, interrupt_enabled := 0, PC_psw := 0 } }

/-- `init_memory` from MEMORY/memory.c: zero every word, then stamp the OS
region with the `"OS_RESERVED"` marker. -/
def init_memory_mem : ℕ → Word :=
  fun i => if i < 300 then wrd "OS_RESERVED" else wrd "00000000"

/-- `init_dma` from DMA/dma.c. -/
def init_dma_ctrl : DMAController :=
  { memory_address := 0, disk_track := 0, disk_cylinder := 0, disk_sector := 0,
    io_operation := 0, bytes_to_transfer := 1, state := DMA_IDLE, status := 0 }

/-- The machine right after `main`'s initialization sequence (init_memory,
init_registers, init_interrupts, init_dma, init_cpu). -/
def init_machine : Machine :=
  { regs := init_registers_regs, mem := init_memory_mem, pending := fun _ => false,
    dma := init_dma_ctrl, cpu_state := CPU_RUNNING, raised := [], dispatched := [] }

/-- `load_program_file` from the console module: write the hard-coded sample
program at 300..303, then set RB=300 and RL=100; the start address is 300. -/
def load_program_file (s : Machine) : Machine :=
  let s1 := write_memory s 300 (wrd "00050000")
  let s2 := write_memory s1 301 (wrd "01030000")
  let s3 := write_memory s2 302 (wrd "05001200")
  let s4 := write_memory s3 303 (wrd "45000000")
  { s4 with regs.RB := int_to_word 300, regs.RL := int_to_word 100 }

/-- The machine at the top of `execute_program`'s loop after `run` loads and
starts the default program. -/
def start_machine : Machine := execute_program_start (load_program_file init_machine) 300

/-- `trigger_interrupt` only touches the pending bits and the raised trace. -/
lemma trigger_interrupt_effects (s : Machine) (c : Int) :
    (trigger_interrupt s c).mem = s.mem ∧ (trigger_interrupt s c).regs = s.regs ∧
    (trigger_interrupt s c).dma = s.dma ∧ (trigger_interrupt s c).cpu_state = s.cpu_state ∧
    (trigger_interrupt s c).dispatched = s.dispatched := by
  unfold trigger_interrupt trigger_in_range
  split_ifs <;> exact ⟨rfl, rfl, rfl, rfl, rfl⟩

/-- With interrupts disabled a trigger is dropped: no pending bit changes. -/
lemma trigger_interrupt_pending (s : Machine) (c : Int)
    (hie : s.regs.psw.interrupt_enabled = 0) :
    (trigger_interrupt s c).pending = s.pending := by
  unfold trigger_interrupt trigger_in_range
  simp only [hie]
  split_ifs <;> simp_all

/-- An in-range trigger records its code in the raised trace. -/
lemma trigger_interrupt_raised (s : Machine) (c : Int) (h0 : 0 ≤ c) (h8 : c ≤ 8) :
    (trigger_interrupt s c).raised = s.raised ++ [c.toNat] := by
  unfold trigger_interrupt trigger_in_range
  rw [if_neg (by omega)]
  split_ifs <;> rfl

/-- A translation that produced a non-negative physical address did not
change the machine. -/
lemma logical_to_physical_nonneg (s : Machine) (l : Int)
    (h : 0 ≤ (logical_to_physical s l).2) :
    (logical_to_physical s l).1 = s := by
  simp only [logical_to_physical] at h ⊢
  split_ifs at h ⊢ <;> simp_all

/-- C1: a USER-mode access whose successful translation lands in the OS
region (physical address in [0, 300)) is refused: `read_memory` raises
`INT_INVALID_ADDRESS` (code 6) and returns the `"PRIV_ERR"` sentinel, and
`write_memory` raises the same interrupt and leaves every memory cell — in
fact the whole memory array — unchanged. -/
theorem C1_memory_protection (s : Machine) (l : Int) (w : Word)
    (hmode : s.regs.psw.operation_mode = 0)
    (hp0 : 0 ≤ (logical_to_physical s l).2)
    (hp300 : (logical_to_physical s l).2 < 300) :
    read_memory s l = (trigger_interrupt s 6, wrd "PRIV_ERR") ∧
    (read_memory s l).1.raised = s.raised ++ [6] ∧
    write_memory s l w = trigger_interrupt s 6 ∧
    (write_memory s l w).mem = s.mem ∧
    (write_memory s l w).raised = s.raised ++ [6] := by
  have hbase := logical_to_physical_nonneg s l hp0
  have hr : read_memory s l = (trigger_interrupt s 6, wrd "PRIV_ERR") := by
    unfold read_memory
    rw [if_neg (by omega), if_neg (by unfold MEMORY_SIZE; omega),
      if_pos (by rw [hbase]; exact ⟨by unfold OS_RESERVED_LIMIT; omega, hmode⟩), hbase]
  have hw : write_memory s l w = trigger_interrupt s 6 := by
    unfold write_memory
    rw [if_neg (by omega), if_neg (by unfold MEMORY_SIZE; omega),
      if_pos (by rw [hbase]; exact ⟨by unfold OS_RESERVED_LIMIT; omega, hmode⟩), hbase]
  refine ⟨hr, ?_, hw, ?_, ?_⟩
  · rw [hr]; exact trigger_interrupt_raised s 6 (by norm_num) (by norm_num)
  · rw [hw]; exact (trigger_interrupt_effects s 6).1
  · rw [hw]; exact trigger_interrupt_raised s 6 (by norm_num) (by norm_num)

/-- Witness for C1: with the fresh machine switched to USER mode (RB=0,
RL=1024, so logical 50 translates to physical 50 < 300), reading logical 50
yields `"PRIV_ERR"` with interrupt 6 raised and writing it changes nothing. -/
theorem C1_memory_protection_witness :
    ({ init_machine with regs.psw.operation_mode := 0 }.regs.psw.operation_mode = 0) ∧
    read_memory { init_machine with regs.psw.operation_mode := 0 } 50 =
      (trigger_interrupt { init_machine with regs.psw.operation_mode := 0 } 6,
        wrd "PRIV_ERR") ∧
    (write_memory { init_machine with regs.psw.operation_mode := 0 } 50 (wrd "00000007")).mem =
      { init_machine with regs.psw.operation_mode := 0 }.mem := by
  refine ⟨rfl, ?_, ?_⟩
  · exact (C1_memory_protection _ 50 (wrd "00000007") rfl (by decide) (by decide)).1
  · exact (C1_memory_protection _ 50 (wrd "00000007") rfl (by decide) (by decide)).2.2.2.1

/-- C3: the word codec round-trips on every integer in the representable
range [-9999999, 9999999]. -/
theorem C3_word_round_trip (v : Int) (h1 : -9999999 ≤ v) (h2 : v ≤ 9999999) :
    word_to_int (int_to_word v) = v :=
  word_int_round_trip v h1 h2

/-- Witness for C3 at v = -1234567. -/
theorem C3_word_round_trip_witness :
    (-9999999 ≤ (-1234567 : Int)) ∧ word_to_int (int_to_word (-1234567)) = -1234567 :=
  ⟨by norm_num, C3_word_round_trip (-1234567) (by norm_num) (by norm_num)⟩

/-- Counterexample to C9: `"0123X456"` has 8 characters and is not a sign
digit followed by 7 decimal digits (it contains `'X'`), yet `word_to_int`
returns 123 (the value of `atoi`'s longest leading digit run), not 0, and does
not log an error. -/
theorem C9_counterexample :
    (wrd "0123X456").length = 8 ∧
    word_to_int (wrd "0123X456") = 123 ∧
    word_to_int (wrd "0123X456") ≠ 0 ∧
    word_to_int_logs_error (wrd "0123X456") = false := by
  refine ⟨by decide, by decide, by decide, by decide⟩

/-- C9 as amended: `word_to_int` logs an error and returns 0 exactly when the
stored string does not have 8 characters; for an 8-character word no error is
logged and the result is the sign (character 0 = `'1'` means negative) applied
to `atoi` of characters 1..7 — which is 0 for the reserved sentinels
`"ADDR_ERR"`, `"PRIV_ERR"` and `"OVERFLOW"` because their magnitude part
starts with a non-digit. -/
theorem C9_amended (w : Word) :
    (w.length ≠ 8 → word_to_int w = 0 ∧ word_to_int_logs_error w = true) ∧
    (w.length = 8 → word_to_int_logs_error w = false) ∧
    word_to_int (wrd "ADDR_ERR") = 0 ∧
    word_to_int (wrd "PRIV_ERR") = 0 ∧
    word_to_int (wrd "OVERFLOW") = 0 := by
  refine ⟨fun h => ⟨?_, ?_⟩, fun h => ?_, by decide, by decide, by decide⟩
  · rw [word_to_int, if_pos h]
  · simp [word_to_int_logs_error, h]
  · simp [word_to_int_logs_error, h]

/-- Witness for C9 (amended) at the 7-character sentinel `"MEM_ERR"` and at an
8-character word. -/
theorem C9_amended_witness :
    ((wrd "MEM_ERR").length ≠ 8 ∧ word_to_int (wrd "MEM_ERR") = 0 ∧
      word_to_int_logs_error (wrd "MEM_ERR") = true) ∧
    ((wrd "00000042").length = 8 ∧ word_to_int_logs_error (wrd "00000042") = false) := by
  refine ⟨⟨by decide, ?_, ?_⟩, by decide, ?_⟩
  · exact ((C9_amended (wrd "MEM_ERR")).1 (by decide)).1
  · exact ((C9_amended (wrd "MEM_ERR")).1 (by decide)).2
  · exact (C9_amended (wrd "00000042")).2.1 (by decide)

/-- Counterexample to C7: with RB = 0 and RL = 0 (kernel-trust identity
translation), reading logical address 2500 fails the physical range check
[0, 2000): the access returns the `"ADDR_ERR"` sentinel and skips the write,
but no `INT_INVALID_ADDRESS` is raised (the raised trace stays empty and no
pending bit is set), contrary to the claim. -/
theorem C7_counterexample :
    word_to_int { init_machine with regs.RL := int_to_word 0 }.regs.RB = 0 ∧
    word_to_int { init_machine with regs.RL := int_to_word 0 }.regs.RL = 0 ∧
    read_memory { init_machine with regs.RL := int_to_word 0 } 2500 =
      ({ init_machine with regs.RL := int_to_word 0 }, wrd "ADDR_ERR") ∧
    (read_memory { init_machine with regs.RL := int_to_word 0 } 2500).1.raised = [] ∧
    write_memory { init_machine with regs.RL := int_to_word 0 } 2500 (wrd "00000007") =
      { init_machine with regs.RL := int_to_word 0 } := by
  refine ⟨by decide, by decide, rfl, by decide, rfl⟩

/-- C7 as amended: a base/limit window violation (when not both RB and RL are
zero) raises `INT_INVALID_ADDRESS`; `read_memory` then returns `"MEM_ERR"`
and `write_memory` skips the write.  A physical address that escapes
[0, 2000) after a *successful* translation does not raise any interrupt:
`read_memory` returns `"ADDR_ERR"` (for addresses ≥ 2000) and `write_memory`
silently skips, leaving the machine unchanged. -/
theorem C7_amended (s : Machine) (l : Int) (w : Word) :
    (¬(word_to_int s.regs.RB = 0 ∧ word_to_int s.regs.RL = 0) →
      (l + word_to_int s.regs.RB < word_to_int s.regs.RB ∨
       l + word_to_int s.regs.RB ≥ word_to_int s.regs.RB + word_to_int s.regs.RL) →
      read_memory s l = (trigger_interrupt s 6, wrd "MEM_ERR") ∧
      (read_memory s l).1.raised = s.raised ++ [6] ∧
      write_memory s l w = trigger_interrupt s 6 ∧
      (write_memory s l w).mem = s.mem) ∧
    (0 ≤ (logical_to_physical s l).2 → (logical_to_physical s l).2 ≥ 2000 →
      read_memory s l = (s, wrd "ADDR_ERR") ∧ write_memory s l w = s) := by
  constructor
  · intro hnz hviol
    have ht : logical_to_physical s l = (trigger_interrupt s 6, -1) := by
      unfold logical_to_physical
      rw [if_neg hnz, if_pos hviol]
    have hr : read_memory s l = (trigger_interrupt s 6, wrd "MEM_ERR") := by
      unfold read_memory
      rw [ht, if_pos (by norm_num)]
    have hw : write_memory s l w = trigger_interrupt s 6 := by
      unfold write_memory
      rw [ht, if_pos (by norm_num)]
    refine ⟨hr, ?_, hw, ?_⟩
    · rw [hr]; exact trigger_interrupt_raised s 6 (by norm_num) (by norm_num)
    · rw [hw]; exact (trigger_interrupt_effects s 6).1
  · intro h0 h2000
    have hbase := logical_to_physical_nonneg s l h0
    constructor
    · unfold read_memory
      rw [if_neg (by omega), if_pos (by unfold MEMORY_SIZE; omega), hbase]
    · unfold write_memory
      rw [if_neg (by omega), if_pos (by unfold MEMORY_SIZE; omega), hbase]

/-- Witness for C7 (amended): RB=300, RL=100 — logical 150 violates the
window, so reading raises interrupt 6 and yields `"MEM_ERR"`; and with RB=0,
RL=1024, logical 2500 translates to physical 2500 ≥ 2000, so reading yields
`"ADDR_ERR"` with no machine change. -/
theorem C7_amended_witness :
    (read_memory (load_program_file init_machine) 150 =
      (trigger_interrupt (load_program_file init_machine) 6, wrd "MEM_ERR") ∧
     write_memory (load_program_file init_machine) 150 (wrd "00000007") =
      trigger_interrupt (load_program_file init_machine) 6) ∧
    (read_memory { init_machine with regs.RL := int_to_word 0 } 2500 =
      ({ init_machine with regs.RL := int_to_word 0 }, wrd "ADDR_ERR") ∧
     write_memory { init_machine with regs.RL := int_to_word 0 } 2500 (wrd "00000007") =
      { init_machine with regs.RL := int_to_word 0 }) := by
  constructor
  · have h := (C7_amended (load_program_file init_machine) 150 (wrd "00000007")).1
      (by decide) (by decide)
    exact ⟨h.1, h.2.2.1⟩
  · exact (C7_amended { init_machine with regs.RL := int_to_word 0 } 2500
      (wrd "00000007")).2 (by decide) (by decide)

/-- `wrap32` is the identity on values representable in a 32-bit `int`. -/
lemma wrap32_id (z : Int) (h1 : -2147483648 ≤ z) (h2 : z < 2147483648) :
    wrap32 z = z := by
  unfold wrap32
  omega

/-- Counterexample to C2: with AC = int_to_word 9999000 and interrupts
enabled, executing SUM immediate 2000 produces the exact result 10001000,
which exceeds the word range but does not trip the machine-level wrap test
(`result < ac_value && operand > 0` is false).  Hence the condition code
becomes 2 (not 3), no `INT_OVERFLOW` is raised or left pending, and AC is
assigned the `"OVERFLOW"` sentinel rather than a wrapped arithmetic result. -/
theorem C2_counterexample :
    (execute_instruction
        { init_machine with regs.AC := int_to_word 9999000, regs.psw.interrupt_enabled := 1 }
        { opcode := 0, mode := 1, value := 2000, effective_address := 2000 }
      ).regs.psw.condition_code = 2 ∧
    (execute_instruction
        { init_machine with regs.AC := int_to_word 9999000, regs.psw.interrupt_enabled := 1 }
        { opcode := 0, mode := 1, value := 2000, effective_address := 2000 }
      ).pending ⟨8, by norm_num⟩ = false ∧
    (execute_instruction
        { init_machine with regs.AC := int_to_word 9999000, regs.psw.interrupt_enabled := 1 }
        { opcode := 0, mode := 1, value := 2000, effective_address := 2000 }
      ).raised = [] ∧
    (execute_instruction
        { init_machine with regs.AC := int_to_word 9999000, regs.psw.interrupt_enabled := 1 }
        { opcode := 0, mode := 1, value := 2000, effective_address := 2000 }
      ).regs.AC = wrd "OVERFLOW" := by
  refine ⟨by decide, by decide, by decide, by decide⟩

/-- C2 as amended: when a SUM with a positive immediate operand overflows the
word range (exact result > 9999999) without overflowing the 32-bit machine
integer, `execute_instruction` sets the condition code to 2 (the sign of the
result), raises no interrupt, leaves every pending bit as it was, and assigns
AC the `"OVERFLOW"` sentinel produced by `int_to_word`; cc := 3 together with
`INT_OVERFLOW` happens only when the machine-level wrap tests fire. -/
theorem C2_amended (s : Machine) (v ea : Int)
    (_hac : 0 ≤ word_to_int s.regs.AC)
    (hv : 0 < v)
    (hbig : word_to_int s.regs.AC + v > 9999999)
    (hfit : word_to_int s.regs.AC + v < 2147483648) :
    (execute_instruction s { opcode := 0, mode := 1, value := v, effective_address := ea }
      ).regs.AC = wrd "OVERFLOW" ∧
    (execute_instruction s { opcode := 0, mode := 1, value := v, effective_address := ea }
      ).regs.psw.condition_code = 2 ∧
    (execute_instruction s { opcode := 0, mode := 1, value := v, effective_address := ea }
      ).pending = s.pending ∧
    (execute_instruction s { opcode := 0, mode := 1, value := v, effective_address := ea }
      ).raised = s.raised := by
  have hx : execute_instruction s { opcode := 0, mode := 1, value := v, effective_address := ea }
      = exec_arith s { opcode := 0, mode := 1, value := v, effective_address := ea } := by
    unfold execute_instruction
    norm_num
  have hwrap : wrap32 (word_to_int s.regs.AC + v) = word_to_int s.regs.AC + v :=
    wrap32_id _ (by omega) (by omega)
  have hov : int_to_word (word_to_int s.regs.AC + v) = wrd "OVERFLOW" := by
    unfold int_to_word
    rw [if_pos (by omega)]
  rw [hx]
  unfold exec_arith update_condition_code
  norm_num [hwrap, hov]
  rw [if_neg (by omega), if_neg (by omega), if_neg (by omega)]
  exact ⟨rfl, rfl, rfl, rfl⟩

/-- Witness for C2 (amended) at AC = 9999000, SUM immediate 2000 with
interrupts enabled. -/
theorem C2_amended_witness :
    (0 ≤ word_to_int
      ({ init_machine with regs.AC := int_to_word 9999000, regs.psw.interrupt_enabled := 1 } : Machine).regs.AC) ∧
    (execute_instruction
        { init_machine with regs.AC := int_to_word 9999000, regs.psw.interrupt_enabled := 1 }
        { opcode := 0, mode := 1, value := 2000, effective_address := 2000 }
      ).regs.AC = wrd "OVERFLOW" := by
  refine ⟨by decide, ?_⟩
  exact (C2_amended
    { init_machine with regs.AC := int_to_word 9999000, regs.psw.interrupt_enabled := 1 }
    2000 2000 (by decide) (by decide) (by decide) (by decide)).1

/-- Counterexample to C6: with the controller in state `DMA_READING`,
`dma_set_memory_address` still applies a valid new address — the
configuration is not left unchanged, so configuration calls are not rejected
outside `DMA_IDLE`. -/
theorem C6_counterexample :
    { init_machine with dma.state := DMA_READING }.dma.state ≠ DMA_IDLE ∧
    { init_machine with dma.state := DMA_READING }.dma.memory_address = 0 ∧
    (dma_set_memory_address { init_machine with dma.state := DMA_READING } 500
      ).dma.memory_address = 500 := by
  refine ⟨by decide, by decide, by decide⟩

/-- C6 as amended: only `dma_start_transfer` is gated on the controller
state — when the state is not `DMA_IDLE` it returns with the machine
unchanged.  The four configuration setters are not gated on the state: each
rejects an out-of-range argument (leaving the machine unchanged) and
otherwise stores the argument in its configuration field, in any state. -/
theorem C6_amended (s : Machine) (a t c sec op sz : Int) :
    (s.dma.state ≠ DMA_IDLE → dma_start_transfer s = s) ∧
    (0 ≤ a → a < 2000 → (dma_set_memory_address s a).dma.memory_address = a) ∧
    (a < 0 ∨ a ≥ 2000 → dma_set_memory_address s a = s) ∧
    (0 ≤ t → t < 10 → 0 ≤ c → c < 10 → 0 ≤ sec → sec < 100 →
      (dma_set_disk_location s t c sec).dma.disk_track = t ∧
      (dma_set_disk_location s t c sec).dma.disk_cylinder = c ∧
      (dma_set_disk_location s t c sec).dma.disk_sector = sec) ∧
    (t < 0 ∨ t ≥ 10 ∨ c < 0 ∨ c ≥ 10 ∨ sec < 0 ∨ sec ≥ 100 →
      dma_set_disk_location s t c sec = s) ∧
    (op = 0 ∨ op = 1 → (dma_set_io_operation s op).dma.io_operation = op) ∧
    (op ≠ 0 ∧ op ≠ 1 → dma_set_io_operation s op = s) ∧
    (0 < sz → (dma_set_transfer_size s sz).dma.bytes_to_transfer = sz) ∧
    (sz ≤ 0 → dma_set_transfer_size s sz = s) := by
  refine ⟨fun h => ?_, fun h1 h2 => ?_, fun h => ?_, fun h1 h2 h3 h4 h5 h6 => ?_,
    fun h => ?_, fun h => ?_, fun h => ?_, fun h => ?_, fun h => ?_⟩
  · unfold dma_start_transfer
    rw [if_pos h]
  · unfold dma_set_memory_address MEMORY_SIZE
    rw [if_neg (by omega)]
  · unfold dma_set_memory_address MEMORY_SIZE
    rw [if_pos (by omega)]
  · unfold dma_set_disk_location
    rw [if_neg (by omega)]
    exact ⟨rfl, rfl, rfl⟩
  · unfold dma_set_disk_location
    rw [if_pos (by omega)]
  · unfold dma_set_io_operation
    rw [if_neg (by omega)]
  · unfold dma_set_io_operation
    rw [if_pos h]
  · unfold dma_set_transfer_size
    rw [if_neg (by omega)]
  · unfold dma_set_transfer_size
    rw [if_pos h]

/-- Witness for C6 (amended): in state `DMA_READING`, `dma_start_transfer` is
a no-op while `dma_set_memory_address 500` still lands. -/
theorem C6_amended_witness :
    dma_start_transfer { init_machine with dma.state := DMA_READING } =
      { init_machine with dma.state := DMA_READING } ∧
    (dma_set_memory_address { init_machine with dma.state := DMA_READING } 500
      ).dma.memory_address = 500 := by
  constructor
  · exact (C6_amended { init_machine with dma.state := DMA_READING } 0 0 0 0 0 0).1
      (by decide)
  · exact (C6_amended { init_machine with dma.state := DMA_READING } 500 0 0 0 0 0).2.1
      (by decide) (by decide)

/-- The interrupt handlers never touch the pending bits or the dispatch
trace. -/
lemma run_handler_effects (i : Fin 9) (s : Machine) :
    (run_handler i s).pending = s.pending ∧ (run_handler i s).dispatched = s.dispatched := by
  unfold run_handler
  split_ifs <;> exact ⟨rfl, rfl⟩

/-- One dispatcher iteration clears exactly the processed pending bit. -/
lemma dispatch_one_pending (s : Machine) (i j : Fin 9) :
    (dispatch_one s i).pending j = if j = i then false else s.pending j := by
  unfold dispatch_one
  by_cases hp : s.pending i
  · rw [if_pos hp]
    have hr := (run_handler_effects i { s with regs.psw.operation_mode := 1 }).1
    simp [hr]
  · rw [if_neg hp]
    split_ifs with h
    · subst h
      simpa using hp
    · rfl

/-- One dispatcher iteration records the code exactly when it was pending. -/
lemma dispatch_one_dispatched (s : Machine) (i : Fin 9) :
    (dispatch_one s i).dispatched =
      if s.pending i then s.dispatched ++ [(i : ℕ)] else s.dispatched := by
  unfold dispatch_one
  by_cases hp : s.pending i
  · rw [if_pos hp, if_pos hp]
    have hr := (run_handler_effects i { s with regs.psw.operation_mode := 1 }).2
    simp [hr]
  · rw [if_neg hp, if_neg hp]

/-- Folding the dispatcher over a duplicate-free list of codes appends the
pending ones, in list order, to the dispatch trace and clears exactly the
listed pending bits. -/
lemma dispatch_fold (l : List (Fin 9)) :
    ∀ s : Machine, l.Nodup →
      ((l.foldl dispatch_one s).dispatched =
        s.dispatched ++ (l.filter (fun i => s.pending i)).map Fin.val) ∧
      (∀ j : Fin 9, (l.foldl dispatch_one s).pending j =
        if j ∈ l then false else s.pending j) := by
  induction l with
  | nil => intro s _; simp
  | cons i rest ih =>
    intro s hnd
    rw [List.nodup_cons] at hnd
    obtain ⟨hnotin, hrest⟩ := hnd
    have ihs := ih (dispatch_one s i) hrest
    have hfilter : rest.filter (fun j => (dispatch_one s i).pending j) =
        rest.filter (fun j => s.pending j) := by
      refine List.filter_congr ?_
      intro j hj
      rw [dispatch_one_pending, if_neg (by rintro rfl; exact hnotin hj)]
    constructor
    · rw [List.foldl_cons, ihs.1, hfilter, dispatch_one_dispatched]
      by_cases hp : s.pending i
      · rw [if_pos hp, List.filter_cons_of_pos (by simpa using hp)]
        simp
      · rw [if_neg hp, List.filter_cons_of_neg (by simpa using hp)]
    · intro j
      rw [List.foldl_cons, ihs.2 j, dispatch_one_pending]
      by_cases hj : j ∈ rest
      · rw [if_pos hj, if_pos (List.mem_cons_of_mem i hj)]
      · rw [if_neg hj]
        by_cases hji : j = i
        · subst hji
          rw [if_pos rfl, if_pos (List.mem_cons_self j rest)]
        · rw [if_neg hji, if_neg (by simp [hji, hj])]

/-- C5: one call to `handle_pending_interrupts` appends to the dispatch trace
exactly the pending codes, each once, in ascending code order (the order of
`List.finRange 9`), and afterwards no pending bit — in particular no
previously pending code — is still set. -/
theorem C5_interrupt_dispatch (s : Machine) :
    (handle_pending_interrupts s).dispatched =
      s.dispatched ++ ((List.finRange 9).filter (fun i => s.pending i)).map Fin.val ∧
    ∀ j : Fin 9, (handle_pending_interrupts s).pending j = false := by
  have h := dispatch_fold (List.finRange 9) s (List.nodup_finRange 9)
  unfold handle_pending_interrupts
  refine ⟨h.1, fun j => ?_⟩
  rw [h.2 j, if_pos (List.mem_finRange j)]

/-- The machine returned by `read_memory` is the input machine, possibly with
`INT_INVALID_ADDRESS` triggered on it (at most twice, once per guard). -/
lemma read_memory_machine (s : Machine) (l : Int) :
    (read_memory s l).1 = s ∨ (read_memory s l).1 = trigger_interrupt s 6 ∨
    (read_memory s l).1 = trigger_interrupt (trigger_interrupt s 6) 6 := by
  simp only [read_memory, logical_to_physical]
  split_ifs <;> simp

/-- `read_memory` leaves the registers, memory, DMA controller, CPU state and
dispatch trace untouched. -/
lemma read_memory_effects (s : Machine) (l : Int) :
    ((read_memory s l).1).mem = s.mem ∧ ((read_memory s l).1).regs = s.regs ∧
    ((read_memory s l).1).dma = s.dma ∧ ((read_memory s l).1).cpu_state = s.cpu_state ∧
    ((read_memory s l).1).dispatched = s.dispatched := by
  rcases read_memory_machine s l with h | h | h <;> rw [h]
  · exact ⟨rfl, rfl, rfl, rfl, rfl⟩
  · exact trigger_interrupt_effects s 6
  · obtain ⟨a1, a2, a3, a4, a5⟩ := trigger_interrupt_effects s 6
    obtain ⟨b1, b2, b3, b4, b5⟩ := trigger_interrupt_effects (trigger_interrupt s 6) 6
    exact ⟨b1.trans a1, b2.trans a2, b3.trans a3, b4.trans a4, b5.trans a5⟩

/-- With interrupts disabled, `read_memory` leaves the pending bits alone. -/
lemma read_memory_pending (s : Machine) (l : Int)
    (hie : s.regs.psw.interrupt_enabled = 0) :
    ((read_memory s l).1).pending = s.pending := by
  rcases read_memory_machine s l with h | h | h <;> rw [h]
  · exact trigger_interrupt_pending s 6 hie
  · have h2 : (trigger_interrupt s 6).regs = s.regs := (trigger_interrupt_effects s 6).2.1
    rw [trigger_interrupt_pending (trigger_interrupt s 6) 6 (by rw [h2]; exact hie)]
    exact trigger_interrupt_pending s 6 hie

/-- The PC mirror after a fetch: the bitfield increment wraps mod 1024 and
`set_PC_int` then stores its clamp (the identity on [0, 1023]). -/
lemma fetch_pc (s : Machine) :
    ((fetch_instruction s).1).regs.psw.PC_psw =
      pcClamp (((s.regs.psw.PC_psw + 1) % 1024 : ℕ) : Int) := by
  unfold fetch_instruction set_PC_int
  dsimp only
  rw [(read_memory_effects _ _).2.1]
  dsimp only
  rfl

/-- C4, spec-modelled through `set_PC_int`: every PC-writing operation leaves
`PC_psw = clamp(v, 0, 1023)` where `v` is the integer stored into the full PC
(itself stored as `int_to_word v`): the fetch increment, JMP, a taken
JEQ/JGT/JLT/JOV, CALL, RET and the `execute_program` entry; in particular a
jump to an effective address above 1023 leaves `PC_psw = 1023`. -/
theorem C4_pc_mirror (s : Machine) (i : Instruction) (start : Int) :
    ((set_PC_int s start).regs.psw.PC_psw = pcClamp start ∧
      (set_PC_int s start).regs.PC = int_to_word start) ∧
    ((fetch_instruction s).1).regs.psw.PC_psw =
      pcClamp (((s.regs.psw.PC_psw + 1) % 1024 : ℕ) : Int) ∧
    (i.opcode = 27 →
      (execute_instruction s i).regs.psw.PC_psw = pcClamp i.effective_address) ∧
    (i.opcode = 14 →
      (execute_instruction s i).regs.psw.PC_psw = pcClamp i.effective_address) ∧
    ((i.opcode = 9 ∧ s.regs.psw.condition_code = 0) ∨
     (i.opcode = 10 ∧ s.regs.psw.condition_code = 2) ∨
     (i.opcode = 11 ∧ s.regs.psw.condition_code = 1) ∨
     (i.opcode = 12 ∧ s.regs.psw.condition_code = 3) →
      (execute_instruction s i).regs.psw.PC_psw = pcClamp i.effective_address) ∧
    (i.opcode = 15 →
      (execute_instruction s i).regs.psw.PC_psw =
        pcClamp (word_to_int (read_memory
          ({ s with regs.SP := int_to_word (word_to_int s.regs.SP + 1) } : Machine)
          (word_to_int s.regs.SP + 1)).2)) ∧
    ((execute_program_start s start).regs.psw.PC_psw = pcClamp start) ∧
    (i.opcode = 27 → 1023 < i.effective_address →
      (execute_instruction s i).regs.psw.PC_psw = 1023) := by
  have h27 : i.opcode = 27 →
      (execute_instruction s i).regs.psw.PC_psw = pcClamp i.effective_address := by
    intro hop
    unfold execute_instruction
    rw [hop]
    norm_num [set_PC_int]
  refine ⟨⟨rfl, rfl⟩, fetch_pc s, h27, ?_, ?_, ?_, rfl, ?_⟩
  · intro hop
    unfold execute_instruction
    rw [hop]
    norm_num [set_PC_int]
  · intro hcond
    have hop : i.opcode = 9 ∨ i.opcode = 10 ∨ i.opcode = 11 ∨ i.opcode = 12 := by
      rcases hcond with ⟨h, _⟩ | ⟨h, _⟩ | ⟨h, _⟩ | ⟨h, _⟩ <;> simp [h]
    unfold execute_instruction
    rw [if_neg (by rcases hop with h | h | h | h <;> simp [h]),
      if_neg (by rcases hop with h | h | h | h <;> simp [h]),
      if_neg (by rcases hop with h | h | h | h <;> simp [h]),
      if_neg (by rcases hop with h | h | h | h <;> simp [h]),
      if_neg (by rcases hop with h | h | h | h <;> simp [h]),
      if_pos hop]
    unfold exec_cond_jump set_PC_int
    rcases hcond with ⟨h, hc⟩ | ⟨h, hc⟩ | ⟨h, hc⟩ | ⟨h, hc⟩ <;>
      simp [h, hc]
  · intro hop
    unfold execute_instruction
    rw [hop]
    norm_num [set_PC_int]
  · intro hop hbig
    rw [h27 hop]
    unfold pcClamp
    omega

/-- Witness for C4: from the started default program, a JMP to effective
address 2000 leaves the PC mirror clamped at 1023. -/
theorem C4_pc_mirror_witness :
    (execute_instruction start_machine
      { opcode := 27, mode := 0, value := 2000, effective_address := 2000 }
      ).regs.psw.PC_psw = 1023 := by
  have h := (C4_pc_mirror start_machine
    { opcode := 27, mode := 0, value := 2000, effective_address := 2000 } 0).2.2.2.2.2.2.2
    rfl (by norm_num)
  exact h

/-- C10: every memory access of the DMA transfer worker goes through the
memory unit, so it is subject to the same base/limit translation as CPU
accesses.  For a READ transfer step `i` with configured memory address `a`,
in kernel mode and with an active (RB, RL) window: if the access `a + i`
falls inside the window (physical address `a + i + RB` in `[RB, RB + RL)`,
here expressed as `0 ≤ a + i < RL`), the synthetic disk word for step `i` is
deposited at physical cell `a + i + RB` — and, whenever `RB ≠ 0`, physical
cell `a + i` itself is left untouched; if the access falls outside the
window, the step is rejected: no cell changes and `INT_INVALID_ADDRESS` is
raised. -/
theorem C10_dma_through_mmu (s : Machine) (i : ℕ)
    (hio : s.dma.io_operation = 0)
    (hmode : s.regs.psw.operation_mode = 1)
    (hmem : s.dma.memory_address + (i : Int) < MEMORY_SIZE) :
    ((0 ≤ s.dma.memory_address + (i : Int) →
      s.dma.memory_address + (i : Int) < word_to_int s.regs.RL →
      0 ≤ s.dma.memory_address + (i : Int) + word_to_int s.regs.RB →
      s.dma.memory_address + (i : Int) + word_to_int s.regs.RB < MEMORY_SIZE →
      ¬(word_to_int s.regs.RB = 0 ∧ word_to_int s.regs.RL = 0) →
      (transfer_step s i).mem (s.dma.memory_address + (i : Int) +
          word_to_int s.regs.RB).toNat =
        dma_read_word s.dma.disk_track s.dma.disk_cylinder (s.dma.disk_sector + (i : Int)) ∧
      (word_to_int s.regs.RB ≠ 0 →
        (transfer_step s i).mem (s.dma.memory_address + (i : Int)).toNat =
          s.mem (s.dma.memory_address + (i : Int)).toNat)) ∧
    ((s.dma.memory_address + (i : Int) < 0 ∨
        word_to_int s.regs.RL ≤ s.dma.memory_address + (i : Int)) →
      ¬(word_to_int s.regs.RB = 0 ∧ word_to_int s.regs.RL = 0) →
      (transfer_step s i).mem = s.mem ∧
      (transfer_step s i).raised = s.raised ++ [6])) := by
  have hstep : transfer_step s i =
      write_memory s (s.dma.memory_address + (i : Int))
        (dma_read_word s.dma.disk_track s.dma.disk_cylinder
          (s.dma.disk_sector + (i : Int))) := by
    unfold transfer_step
    rw [if_pos hio, if_pos hmem]
  constructor
  · intro h1 h2 h3 h4 hnz
    have hl2p : logical_to_physical s (s.dma.memory_address + (i : Int)) =
        (s, s.dma.memory_address + (i : Int) + word_to_int s.regs.RB) := by
      unfold logical_to_physical
      rw [if_neg hnz, if_neg (by omega)]
    have hw : transfer_step s i =
        { s with mem := fun j =>
            if j = (s.dma.memory_address + (i : Int) + word_to_int s.regs.RB).toNat then
              (dma_read_word s.dma.disk_track s.dma.disk_cylinder
                (s.dma.disk_sector + (i : Int)))
            else s.mem j } := by
      rw [hstep]
      unfold write_memory
      rw [hl2p]
      dsimp only
      rw [if_neg (by omega), if_neg (by omega),
        if_neg (by unfold OS_RESERVED_LIMIT; rw [hmode]; omega)]
    constructor
    · rw [hw]
      dsimp only
      rw [if_pos rfl]
    · intro hrb
      rw [hw]
      dsimp only
      rw [if_neg (by omega)]
  · intro hout hnz
    have hl2p : logical_to_physical s (s.dma.memory_address + (i : Int)) =
        (trigger_interrupt s 6, -1) := by
      unfold logical_to_physical
      rw [if_neg hnz, if_pos (by omega)]
    have hw : transfer_step s i = trigger_interrupt s 6 := by
      rw [hstep]
      unfold write_memory
      rw [hl2p]
      dsimp only
      rw [if_pos (by omega)]
    rw [hw]
    exact ⟨(trigger_interrupt_effects s 6).1,
      trigger_interrupt_raised s 6 (by norm_num) (by norm_num)⟩

/-- Witness for C10: with the default program's region (RB=300, RL=100) and a
READ transfer configured at memory address 50, step 2 deposits the synthetic
word at physical cell 352 — not 52, which keeps its contents — while step 150
(logical 200, outside the 100-word window) is rejected with interrupt 6. -/
theorem C10_dma_through_mmu_witness :
    ((transfer_step ({ load_program_file init_machine with dma.memory_address := 50 } : Machine) 2).mem 352 =
      dma_read_word 0 0 2 ∧
     (transfer_step ({ load_program_file init_machine with dma.memory_address := 50 } : Machine) 2).mem 52 =
      ({ load_program_file init_machine with dma.memory_address := 50 } : Machine).mem 52) ∧
    ((transfer_step ({ load_program_file init_machine with dma.memory_address := 50 } : Machine) 150).mem =
      ({ load_program_file init_machine with dma.memory_address := 50 } : Machine).mem ∧
     (transfer_step ({ load_program_file init_machine with dma.memory_address := 50 } : Machine) 150).raised = [6]) := by
  constructor
  · have h := (C10_dma_through_mmu
      ({ load_program_file init_machine with dma.memory_address := 50 } : Machine) 2
      (by decide) (by decide) (by decide)).1
      (by decide) (by decide) (by decide) (by decide) (by decide)
    exact ⟨h.1, h.2 (by decide)⟩
  · exact (C10_dma_through_mmu
      ({ load_program_file init_machine with dma.memory_address := 50 } : Machine) 150
      (by decide) (by decide) (by decide)).2 (by decide) (by decide)

/-- The memory contents after the default program is loaded: the four program
words at 300..303 over the initialized memory (OS marker below 300, zeros
elsewhere). -/
def mem0 : ℕ → Word := fun j =>
  if j = 303 then wrd "45000000"
  else if j = 302 then wrd "05001200"
  else if j = 301 then wrd "01030000"
  else if j = 300 then wrd "00050000"
  else if j < 300 then wrd "OS_RESERVED"
  else wrd "00000000"

lemma start_machine_mem : start_machine.mem = mem0 := rfl

lemma mem0_user (j : ℕ) (h : 304 ≤ j) : mem0 j = wrd "00000000" := by
  unfold mem0
  rw [if_neg (by omega), if_neg (by omega), if_neg (by omega), if_neg (by omega),
    if_neg (by omega)]

/-- The only decoded instructions reachable while the default program runs:
the four program words, the all-zero word, and the invalid decode of the
7-character `"MEM_ERR"` sentinel. -/
def prog_instrs : List Instruction :=
  [{ opcode := 0, mode := 0, value := 50000, effective_address := 50000 },
   { opcode := 1, mode := 0, value := 30000, effective_address := 30000 },
   { opcode := 5, mode := 0, value := 1200, effective_address := 1200 },
   { opcode := 45, mode := 0, value := 0, effective_address := 0 },
   { opcode := 0, mode := 0, value := 0, effective_address := 0 },
   { opcode := -1, mode := 0, value := 0, effective_address := 0 }]

lemma decode_w300 (t : Machine) : decode_instruction t (wrd "00050000") =
    { opcode := 0, mode := 0, value := 50000, effective_address := 50000 } := rfl

lemma decode_w301 (t : Machine) : decode_instruction t (wrd "01030000") =
    { opcode := 1, mode := 0, value := 30000, effective_address := 30000 } := rfl

lemma decode_w302 (t : Machine) : decode_instruction t (wrd "05001200") =
    { opcode := 5, mode := 0, value := 1200, effective_address := 1200 } := rfl

lemma decode_w303 (t : Machine) : decode_instruction t (wrd "45000000") =
    { opcode := 45, mode := 0, value := 0, effective_address := 0 } := rfl

lemma decode_zero (t : Machine) : decode_instruction t (wrd "00000000") =
    { opcode := 0, mode := 0, value := 0, effective_address := 0 } := rfl

lemma decode_memerr (t : Machine) : decode_instruction t (wrd "MEM_ERR") =
    { opcode := -1, mode := 0, value := 0, effective_address := 0 } := rfl

/-- Reading inside the (RB=300, RL=100) window succeeds and hits physical
cell `l + 300` (which is at or above the OS limit, so no privilege check can
fire). -/
lemma read_win (s : Machine) (hRB : s.regs.RB = int_to_word 300)
    (hRL : s.regs.RL = int_to_word 100) (l : Int) (h0 : 0 ≤ l) (h1 : l < 100) :
    read_memory s l = (s, s.mem (l + 300).toNat) := by
  have hrb : word_to_int s.regs.RB = 300 := by rw [hRB]; decide
  have hrl : word_to_int s.regs.RL = 100 := by rw [hRL]; decide
  have hnz : ¬(word_to_int s.regs.RB = 0 ∧ word_to_int s.regs.RL = 0) := by
    rw [hrb, hrl]; norm_num
  have hwin : ¬(l + word_to_int s.regs.RB < word_to_int s.regs.RB ∨
      l + word_to_int s.regs.RB ≥ word_to_int s.regs.RB + word_to_int s.regs.RL) := by
    rw [hrb, hrl]; omega
  have hl2p : logical_to_physical s l = (s, l + 300) := by
    unfold logical_to_physical
    rw [if_neg hnz, if_neg hwin, hrb]
  unfold read_memory
  rw [hl2p]
  dsimp only
  rw [if_neg (by omega), if_neg (by unfold MEMORY_SIZE; omega),
    if_neg (by rintro ⟨ha, _⟩; unfold OS_RESERVED_LIMIT at ha; omega)]

/-- Reading outside the (RB=300, RL=100) window raises `INT_INVALID_ADDRESS`
and returns the `"MEM_ERR"` sentinel. -/
lemma read_oow (s : Machine) (hRB : s.regs.RB = int_to_word 300)
    (hRL : s.regs.RL = int_to_word 100) (l : Int) (h : l < 0 ∨ 100 ≤ l) :
    read_memory s l = (trigger_interrupt s 6, wrd "MEM_ERR") := by
  have hrb : word_to_int s.regs.RB = 300 := by rw [hRB]; decide
  have hrl : word_to_int s.regs.RL = 100 := by rw [hRL]; decide
  have hnz : ¬(word_to_int s.regs.RB = 0 ∧ word_to_int s.regs.RL = 0) := by
    rw [hrb, hrl]; norm_num
  have hwin : l + word_to_int s.regs.RB < word_to_int s.regs.RB ∨
      l + word_to_int s.regs.RB ≥ word_to_int s.regs.RB + word_to_int s.regs.RL := by
    rw [hrb, hrl]; omega
  have hl2p : logical_to_physical s l = (trigger_interrupt s 6, -1) := by
    unfold logical_to_physical
    rw [if_neg hnz, if_pos hwin]
  unfold read_memory
  rw [hl2p]
  dsimp only
  rw [if_pos (by omega)]

/-- Writing outside the (RB=300, RL=100) window raises `INT_INVALID_ADDRESS`
and performs no write. -/
lemma write_oow (s : Machine) (hRB : s.regs.RB = int_to_word 300)
    (hRL : s.regs.RL = int_to_word 100) (l : Int) (w : Word) (h : l < 0 ∨ 100 ≤ l) :
    write_memory s l w = trigger_interrupt s 6 := by
  have hrb : word_to_int s.regs.RB = 300 := by rw [hRB]; decide
  have hrl : word_to_int s.regs.RL = 100 := by rw [hRL]; decide
  have hnz : ¬(word_to_int s.regs.RB = 0 ∧ word_to_int s.regs.RL = 0) := by
    rw [hrb, hrl]; norm_num
  have hwin : l + word_to_int s.regs.RB < word_to_int s.regs.RB ∨
      l + word_to_int s.regs.RB ≥ word_to_int s.regs.RB + word_to_int s.regs.RL := by
    rw [hrb, hrl]; omega
  have hl2p : logical_to_physical s l = (trigger_interrupt s 6, -1) := by
    unfold logical_to_physical
    rw [if_neg hnz, if_pos hwin]
  unfold write_memory
  rw [hl2p]
  dsimp only
  rw [if_pos (by omega)]

/-- The part of the machine the never-halts argument tracks: memory, the
memory window, interrupt enablement, the pending bits, the run state and the
program counter mirror. -/
def KeepCore (a b : Machine) : Prop :=
  b.mem = a.mem ∧ b.regs.RB = a.regs.RB ∧ b.regs.RL = a.regs.RL ∧
  b.regs.psw.interrupt_enabled = a.regs.psw.interrupt_enabled ∧
  b.pending = a.pending ∧ b.cpu_state = a.cpu_state ∧
  b.regs.psw.PC_psw = a.regs.psw.PC_psw

lemma keep_refl (a : Machine) : KeepCore a a := ⟨rfl, rfl, rfl, rfl, rfl, rfl, rfl⟩

lemma keep_trans {a b c : Machine} (h1 : KeepCore a b) (h2 : KeepCore b c) :
    KeepCore a c := by
  obtain ⟨x1, x2, x3, x4, x5, x6, x7⟩ := h1
  obtain ⟨y1, y2, y3, y4, y5, y6, y7⟩ := h2
  exact ⟨y1.trans x1, y2.trans x2, y3.trans x3, y4.trans x4, y5.trans x5,
    y6.trans x6, y7.trans x7⟩

lemma trigger_keep (a : Machine) (c : Int) (hie : a.regs.psw.interrupt_enabled = 0) :
    KeepCore a (trigger_interrupt a c) := by
  obtain ⟨h1, h2, h3, h4, _⟩ := trigger_interrupt_effects a c
  exact ⟨h1, by rw [h2], by rw [h2], by rw [h2], trigger_interrupt_pending a c hie, h4,
    by rw [h2]⟩

lemma read_keep (a : Machine) (l : Int) (hie : a.regs.psw.interrupt_enabled = 0) :
    KeepCore a ((read_memory a l).1) := by
  obtain ⟨h1, h2, h3, h4, _⟩ := read_memory_effects a l
  exact ⟨h1, by rw [h2], by rw [h2], by rw [h2], read_memory_pending a l hie, h4, by rw [h2]⟩

lemma ucc_keep (a : Machine) (r : Int) : KeepCore a (update_condition_code a r) := by
  unfold update_condition_code
  split_ifs <;> exact ⟨rfl, rfl, rfl, rfl, rfl, rfl, rfl⟩

lemma pcClamp_lt (v : Int) : pcClamp v < 1024 := by
  unfold pcClamp
  omega

/-- The tail of the arithmetic block (store AC, set the condition code,
possibly flag overflow) preserves the tracked core when interrupts are
disabled. -/
lemma exec_arith_tail (u : Machine) (R : Int) (C : Prop) [Decidable C]
    (hie : u.regs.psw.interrupt_enabled = 0) :
    KeepCore u (if C then
        trigger_interrupt
          ({ update_condition_code ({ u with regs.AC := int_to_word R } : Machine) R with
            regs.psw.condition_code := 3 }) 8
      else update_condition_code ({ u with regs.AC := int_to_word R } : Machine) R) := by
  have k1 : KeepCore u ({ u with regs.AC := int_to_word R } : Machine) :=
    ⟨rfl, rfl, rfl, rfl, rfl, rfl, rfl⟩
  have k2 : KeepCore u (update_condition_code ({ u with regs.AC := int_to_word R } : Machine) R) :=
    keep_trans k1 (ucc_keep _ R)
  split_ifs with hC
  · have k3 : KeepCore u
        ({ update_condition_code ({ u with regs.AC := int_to_word R } : Machine) R with
          regs.psw.condition_code := 3 } : Machine) := by
      obtain ⟨x1, x2, x3, x4, x5, x6, x7⟩ := k2
      exact ⟨x1, x2, x3, x4, x5, x6, x7⟩
    refine keep_trans k3 (trigger_keep _ 8 ?_)
    rw [k3.2.2.2.1]
    exact hie
  · exact k2

lemma exec_arith_keep (t : Machine) (i : Instruction)
    (hie : t.regs.psw.interrupt_enabled = 0) :
    KeepCore t (exec_arith t i) := by
  unfold exec_arith
  dsimp only
  by_cases hm : i.mode = 1
  · rw [if_pos hm]
    dsimp only
    exact exec_arith_tail t _ _ hie
  · rw [if_neg hm]
    dsimp only
    refine keep_trans (read_keep t i.effective_address hie) ?_
    have hu : ((read_memory t i.effective_address).1).regs.psw.interrupt_enabled = 0 := by
      rw [(read_memory_effects t i.effective_address).2.1]
      exact hie
    exact exec_arith_tail _ _ _ hu

/-- Every instruction that the default program can put in front of the CPU
preserves the tracked core: memory, the (RB, RL) window, interrupt
enablement, the pending bits, the run state — and it never halts the CPU. -/
lemma exec_keep (t : Machine) (i : Instruction) (hi : i ∈ prog_instrs)
    (hRB : t.regs.RB = int_to_word 300) (hRL : t.regs.RL = int_to_word 100)
    (hie : t.regs.psw.interrupt_enabled = 0) :
    KeepCore t (execute_instruction t i) := by
  fin_cases hi
  · have hx : execute_instruction t
        { opcode := 0, mode := 0, value := 50000, effective_address := 50000 } =
        exec_arith t { opcode := 0, mode := 0, value := 50000, effective_address := 50000 } := by
      unfold execute_instruction
      norm_num
    rw [hx]
    exact exec_arith_keep t _ hie
  · have hx : execute_instruction t
        { opcode := 1, mode := 0, value := 30000, effective_address := 30000 } =
        exec_arith t { opcode := 1, mode := 0, value := 30000, effective_address := 30000 } := by
      unfold execute_instruction
      norm_num
    rw [hx]
    exact exec_arith_keep t _ hie
  · have hx : execute_instruction t
        { opcode := 5, mode := 0, value := 1200, effective_address := 1200 } =
        write_memory t 1200 t.regs.AC := by
      unfold execute_instruction
      norm_num
    rw [hx, write_oow t hRB hRL 1200 t.regs.AC (by norm_num)]
    exact trigger_keep t 6 hie
  · have hx : execute_instruction t
        { opcode := 45, mode := 0, value := 0, effective_address := 0 } =
        { t with regs.psw.operation_mode := 1 } := by
      unfold execute_instruction
      norm_num
    rw [hx]
    exact ⟨rfl, rfl, rfl, rfl, rfl, rfl, rfl⟩
  · have hx : execute_instruction t
        { opcode := 0, mode := 0, value := 0, effective_address := 0 } =
        exec_arith t { opcode := 0, mode := 0, value := 0, effective_address := 0 } := by
      unfold execute_instruction
      norm_num
    rw [hx]
    exact exec_arith_keep t _ hie
  · have hx : execute_instruction t
        { opcode := -1, mode := 0, value := 0, effective_address := 0 } =
        trigger_interrupt t 5 := by
      unfold execute_instruction
      norm_num
    rw [hx]
    exact trigger_keep t 5 hie

/-- A fetch keeps memory, the window, interrupt enablement, the pending bits
and the run state, and leaves the PC mirror inside its 10 bits. -/
lemma fetch_keep (s : Machine) (hie : s.regs.psw.interrupt_enabled = 0) :
    ((fetch_instruction s).1).mem = s.mem ∧
    ((fetch_instruction s).1).regs.RB = s.regs.RB ∧
    ((fetch_instruction s).1).regs.RL = s.regs.RL ∧
    ((fetch_instruction s).1).regs.psw.interrupt_enabled = s.regs.psw.interrupt_enabled ∧
    ((fetch_instruction s).1).pending = s.pending ∧
    ((fetch_instruction s).1).cpu_state = s.cpu_state ∧
    ((fetch_instruction s).1).regs.psw.PC_psw < 1024 := by
  unfold fetch_instruction set_PC_int
  dsimp only
  refine ⟨?_, ?_, ?_, ?_, ?_, ?_, pcClamp_lt _⟩
  · rw [(read_memory_effects _ _).1]
  · rw [(read_memory_effects _ _).2.1]
  · rw [(read_memory_effects _ _).2.1]
  · rw [(read_memory_effects _ _).2.1]
  · have h := read_memory_pending
      ({ s with regs.MAR := int_to_word (s.regs.psw.PC_psw : Int) } : Machine)
      (word_to_int (int_to_word (s.regs.psw.PC_psw : Int))) hie
    rw [h]
  · rw [(read_memory_effects _ _).2.2.2.1]

/-- While the default program's memory image and region are in place, every
fetch decodes to one of the six reachable instructions. -/
lemma fetch_decode (s : Machine) (hmem : s.mem = mem0)
    (hRB : s.regs.RB = int_to_word 300) (hRL : s.regs.RL = int_to_word 100)
    (hpc : s.regs.psw.PC_psw < 1024) :
    (fetch_instruction s).2 ∈ prog_instrs := by
  have hmar : word_to_int (int_to_word (s.regs.psw.PC_psw : Int)) =
      (s.regs.psw.PC_psw : Int) :=
    word_int_round_trip _ (by omega) (by omega)
  unfold fetch_instruction set_PC_int
  dsimp only
  rw [hmar]
  by_cases hlt : s.regs.psw.PC_psw < 100
  · have hr := read_win
      ({ s with regs.MAR := int_to_word (s.regs.psw.PC_psw : Int) } : Machine)
      hRB hRL (s.regs.psw.PC_psw : Int) (by omega) (by omega)
    rw [hr]
    dsimp only
    have htn : ((s.regs.psw.PC_psw : Int) + 300).toNat = s.regs.psw.PC_psw + 300 := by
      omega
    rw [hmem, htn]
    have hcase : s.regs.psw.PC_psw = 0 ∨ s.regs.psw.PC_psw = 1 ∨ s.regs.psw.PC_psw = 2 ∨
        s.regs.psw.PC_psw = 3 ∨ 4 ≤ s.regs.psw.PC_psw := by omega
    rcases hcase with h | h | h | h | h
    · rw [h, show mem0 (0 + 300) = wrd "00050000" from rfl, decode_w300]
      decide
    · rw [h, show mem0 (1 + 300) = wrd "01030000" from rfl, decode_w301]
      decide
    · rw [h, show mem0 (2 + 300) = wrd "05001200" from rfl, decode_w302]
      decide
    · rw [h, show mem0 (3 + 300) = wrd "45000000" from rfl, decode_w303]
      decide
    · rw [mem0_user (s.regs.psw.PC_psw + 300) (by omega), decode_zero]
      decide
  · have hr := read_oow
      ({ s with regs.MAR := int_to_word (s.regs.psw.PC_psw : Int) } : Machine)
      hRB hRL (s.regs.psw.PC_psw : Int) (Or.inr (by omega))
    rw [hr]
    dsimp only
    rw [decode_memerr]
    decide

/-- The dispatcher loop is the identity when nothing is pending. -/
lemma dispatch_fold_id (l : List (Fin 9)) (t : Machine)
    (hpend : ∀ j, t.pending j = false) :
    l.foldl dispatch_one t = t := by
  induction l with
  | nil => rfl
  | cons i rest ih =>
    rw [List.foldl_cons, show dispatch_one t i = t from by
      simp [dispatch_one, hpend i]]
    exact ih

lemma handle_pending_id (t : Machine) (hpend : ∀ j, t.pending j = false) :
    handle_pending_interrupts t = t :=
  dispatch_fold_id (List.finRange 9) t hpend

/-- The invariant maintained by every cycle of the default program: the
loaded memory image, the (300, 100) region, interrupts disabled, nothing
pending, the CPU running, and the PC mirror inside its 10 bits. -/
def C8Inv (s : Machine) : Prop :=
  s.mem = mem0 ∧ s.regs.RB = int_to_word 300 ∧ s.regs.RL = int_to_word 100 ∧
  s.regs.psw.interrupt_enabled = 0 ∧ (∀ j, s.pending j = false) ∧
  s.cpu_state = CPU_RUNNING ∧ s.regs.psw.PC_psw < 1024

lemma start_machine_inv : C8Inv start_machine := by
  exact ⟨rfl, rfl, rfl, rfl, fun j => rfl, rfl, by decide⟩

lemma cycle_inv (s : Machine) (h : C8Inv s) : C8Inv (cpu_cycle s) := by
  obtain ⟨hmem, hRB, hRL, hie, hpend, hstate, hpc⟩ := h
  unfold cpu_cycle
  rw [if_neg (by rw [hstate]; simp)]
  dsimp only
  obtain ⟨f1, f2, f3, f4, f5, f6, f7⟩ := fetch_keep s hie
  have hfi := fetch_decode s hmem hRB hRL hpc
  obtain ⟨e1, e2, e3, e4, e5, e6, e7⟩ := exec_keep ((fetch_instruction s).1)
    ((fetch_instruction s).2) hfi (by rw [f2, hRB]) (by rw [f3, hRL]) (by rw [f4, hie])
  have hpend2 : ∀ j,
      (execute_instruction (fetch_instruction s).1 (fetch_instruction s).2).pending j =
        false := by
    intro j
    rw [e5, f5]
    exact hpend j
  rw [handle_pending_id _ hpend2]
  refine ⟨?_, ?_, ?_, ?_, hpend2, ?_, ?_⟩
  · rw [e1, f1, hmem]
  · rw [e2, f2, hRB]
  · rw [e3, f3, hRL]
  · rw [e4, f4, hie]
  · rw [e6, f6, hstate]
  · rw [e7]
    exact f7

/-- C8: starting the default hard-coded program (words 00050000, 01030000,
05001200, 45000000 at 300..303, RB=300, RL=100, entry 300), the CPU never
reaches `CPU_HALTED`: after any number of cycles it is still `CPU_RUNNING`.
The fourth program word decodes to opcode 45 (SWKERN), not 40 (HALT), and no
reachable instruction halts, so the program as written never halts. -/
theorem C8_default_program_never_halts (n : ℕ) :
    (cpu_cycle^[n] start_machine).cpu_state = CPU_RUNNING := by
  have h : C8Inv (cpu_cycle^[n] start_machine) := by
    induction n with
    | zero => exact start_machine_inv
    | succ k ih =>
      rw [Function.iterate_succ_apply']
      exact cycle_inv _ ih
  exact h.2.2.2.2.2.1
